import Mathlib

/-!
Verification of the spacetraders fleet orchestrator core against its
natural-language specification.  Definitions are shallow embeddings of the
Rust source (src/pathfinding.rs, src/tasks.rs,
src/agent_controller/agent_controller.rs, src/ship_scripts/logistics.rs).
Machine floating point arithmetic in the source (f64 sqrt, round and the
staleness ramp) is embedded as exact rational and integer arithmetic; Rust
panics (expect/unwrap/assert) are embedded as explicit error values.
-/

namespace SpaceTraders

/-! ## Integer helpers for embedded f64 arithmetic -/

/-- Fuel-bounded binary integer square root (the fuel is only there to make
the recursion structural; `isqrt` supplies enough of it). -/
def isqrtAux : Nat → Nat → Nat
  | 0, _ => 0
  | fuel + 1, n =>
    if n ≤ 1 then n
    else
      let r := 2 * isqrtAux fuel (n / 4)
      if (r + 1) * (r + 1) ≤ n then r + 1 else r

/-- Integer square root: the unique `s` with `s * s ≤ n < (s + 1) * (s + 1)`
(see `isqrt_spec`). -/
def isqrt (n : Nat) : Nat := isqrtAux n n

theorem isqrtAux_spec (fuel : Nat) : ∀ n : Nat, n ≤ fuel →
    isqrtAux fuel n * isqrtAux fuel n ≤ n ∧
    n < (isqrtAux fuel n + 1) * (isqrtAux fuel n + 1) := by
  induction fuel with
  | zero =>
    intro n h
    have hn : n = 0 := by omega
    subst hn
    simp [isqrtAux]
  | succ fuel ih =>
    intro n h
    by_cases h1 : n ≤ 1
    · simp only [isqrtAux, h1, if_true]
      constructor <;> nlinarith
    · have hm : n / 4 ≤ fuel := by omega
      obtain ⟨hl, hr⟩ := ih (n / 4) hm
      simp only [isqrtAux, h1, if_false]
      set s := isqrtAux fuel (n / 4) with hsdef
      by_cases h2 : (2 * s + 1) * (2 * s + 1) ≤ n
      · rw [if_pos h2]
        refine ⟨h2, ?_⟩
        have h4 : n < 4 * ((s + 1) * (s + 1)) := by
          have hd : n ≤ 4 * (n / 4) + 3 := by omega
          omega
        nlinarith
      · rw [if_neg h2]
        refine ⟨?_, by omega⟩
        have h4 : 4 * (s * s) ≤ 4 * (n / 4) := by omega
        have hd : 4 * (n / 4) ≤ n := by omega
        nlinarith

/-- `isqrt` really is the integer square root. -/
theorem isqrt_spec (n : Nat) :
    isqrt n * isqrt n ≤ n ∧ n < (isqrt n + 1) * (isqrt n + 1) :=
  isqrtAux_spec n n le_rfl

/-- Exact integer rounding of a square root: the embedding of
`(n as f64).sqrt().round()` for a nonnegative integer `n`.  It returns the
integer nearest to the real square root of `n` (the square root of an
integer is never exactly half way between two integers): with
`s = isqrt n`, round up exactly when `n > s * s + s`,
i.e. when `sqrt n ≥ s + 1/2`. -/
def roundSqrt (n : Nat) : Nat :=
  let s := isqrt n
  if n ≤ s * s + s then s else s + 1

/-- Round half up of the rational `num / den` for `den > 0`, in pure integer
arithmetic: the embedding of f64 `round` applied to positive quotients
(f64 rounds half away from zero, which agrees with half up on positives).
`roundDiv_eq` connects it to Mathlib round. -/
def roundDiv (num den : Int) : Int := (2 * num + den) / (2 * den)

theorem roundDiv_eq (num den : Int) (h : 0 < den) :
    roundDiv num den = round ((num : ℚ) / (den : ℚ)) := by
  rw [round_eq, roundDiv]
  have harg : (num : ℚ) / (den : ℚ) + 1 / 2
      = ((2 * num + den : ℤ) : ℚ) / (((2 * den).toNat : ℕ) : ℚ) := by
    have h2 : (((2 * den).toNat : ℕ) : ℚ) = ((2 * den : ℤ) : ℚ) := by
      norm_cast
      omega
    rw [h2]
    have hden : ((den : ℚ)) ≠ 0 := by positivity
    push_cast
    field_simp
    ring
  rw [harg, Rat.floor_intCast_div_natCast]
  congr 1
  omega

/-! ## Pathfinder (src/pathfinding.rs) -/

/-- Flight modes relevant to the pathfinder edge model. -/
inductive ShipFlightMode
  | cruise
  | burn
deriving DecidableEq, Repr

/-- A waypoint as the pathfinder sees it: symbol, integer coordinates and a
market flag (api_models::WaypointDetailed restricted to the fields
src/pathfinding.rs reads). -/
structure Waypoint where
  symbol : String
  x : Int
  y : Int
  isMarket : Bool
deriving DecidableEq, Repr

/-- WaypointDetailed::distance (src/pathfinding.rs lines 172-180):
0 for the same symbol, otherwise `max 1 (round (sqrt (dx^2 + dy^2)))`. -/
def Waypoint.distance (a b : Waypoint) : Int :=
  if a.symbol = b.symbol then 0
  else max 1 (roundSqrt ((a.x - b.x) ^ 2 + (a.y - b.y) ^ 2).toNat : Int)

/-- One direct hop at a chosen flight mode (src/pathfinding.rs Edge). -/
structure Edge where
  distance : Int
  travelDuration : Int
  fuelCost : Int
  flightMode : ShipFlightMode
deriving DecidableEq, Repr

/-- The edge function (src/pathfinding.rs lines 199-226): Burn when
`2 d ≤ fuel_max`, else Cruise when `d ≤ fuel_max`, else no edge.  The f64
duration formulas `15.0 + 12.5 / speed * distance` (Burn) and
`15.0 + 25.0 / speed * distance` (Cruise), rounded half away from zero,
are embedded exactly as `roundDiv (30 speed + 25 d) (2 speed)` and
`roundDiv (15 speed + 25 d) speed` (the same quotients over a common
denominator; durations are positive so half away from zero is half up). -/
def edge (a b : Waypoint) (speed fuelMax : Int) : Option Edge :=
  if 2 * a.distance b ≤ fuelMax then
    some { distance := a.distance b
           travelDuration := roundDiv (30 * speed + 25 * a.distance b) (2 * speed)
           fuelCost := 2 * a.distance b
           flightMode := .burn }
  else if a.distance b ≤ fuelMax then
    some { distance := a.distance b
           travelDuration := roundDiv (15 * speed + 25 * a.distance b) speed
           fuelCost := a.distance b
           flightMode := .cruise }
  else none

theorem edge_burn_duration (a b : Waypoint) (s : Int) (hs : 1 ≤ s) :
    roundDiv (30 * s + 25 * a.distance b) (2 * s)
      = round ((15 : ℚ) + (25 / 2) / (s : ℚ) * ((a.distance b : Int) : ℚ)) := by
  rw [roundDiv_eq _ _ (by omega : (0 : Int) < 2 * s)]
  congr 1
  have hs0 : ((s : Int) : ℚ) ≠ 0 := by
    simp only [ne_eq, Int.cast_eq_zero]
    omega
  push_cast
  field_simp
  ring

theorem edge_cruise_duration (a b : Waypoint) (s : Int) (hs : 1 ≤ s) :
    roundDiv (15 * s + 25 * a.distance b) s
      = round ((15 : ℚ) + 25 / (s : ℚ) * ((a.distance b : Int) : ℚ)) := by
  rw [roundDiv_eq _ _ (by omega : (0 : Int) < s)]
  congr 1
  have hs0 : ((s : Int) : ℚ) ≠ 0 := by
    simp only [ne_eq, Int.cast_eq_zero]
    omega
  push_cast
  field_simp
  try ring

/-- Waypoint A(0,0) of the spec scenario "Edge selection". -/
def wpA : Waypoint := { symbol := "A", x := 0, y := 0, isMarket := true }

/-- Waypoint B(30,40) of the spec scenario "Edge selection". -/
def wpB : Waypoint := { symbol := "B", x := 30, y := 40, isMarket := true }

/-- C1: the edge function returns a Burn edge with fuel cost `2 d` and
duration `round (15 + 12.5 / s * d)` when `2 d ≤ F`; otherwise a Cruise
edge with fuel cost `d` and duration `round (15 + 25 / s * d)` when
`d ≤ F`; otherwise no edge.  `d (a, a) = 0` and `d (a, b) ≥ 1` for
distinct waypoints; for A(0,0), B(30,40), s = 10: F = 100 gives Burn with
cost 100 and duration 78, F = 50 gives Cruise with cost 50 and duration
140, and F = 49 gives no edge. -/
theorem edge_selection (a b : Waypoint) (s F : Int)
    (hab : a.symbol ≠ b.symbol) (hs : 1 ≤ s) :
    (1 ≤ a.distance b) ∧
    (2 * a.distance b ≤ F →
      edge a b s F = some
        { distance := a.distance b
          travelDuration := round ((15 : ℚ) + (25 / 2) / (s : ℚ) * ((a.distance b : Int) : ℚ))
          fuelCost := 2 * a.distance b
          flightMode := .burn }) ∧
    (¬ 2 * a.distance b ≤ F → a.distance b ≤ F →
      edge a b s F = some
        { distance := a.distance b
          travelDuration := round ((15 : ℚ) + 25 / (s : ℚ) * ((a.distance b : Int) : ℚ))
          fuelCost := a.distance b
          flightMode := .cruise }) ∧
    (¬ a.distance b ≤ F → edge a b s F = none) ∧
    (∀ c : Waypoint, c.distance c = 0) ∧
    edge wpA wpB 10 100
      = some { distance := 50, travelDuration := 78, fuelCost := 100, flightMode := .burn } ∧
    edge wpA wpB 10 50
      = some { distance := 50, travelDuration := 140, fuelCost := 50, flightMode := .cruise } ∧
    edge wpA wpB 10 49 = none := by
  refine ⟨?_, ?_, ?_, ?_, ?_, by decide, by decide, by decide⟩
  · unfold Waypoint.distance
    simp only [hab, if_false]
    exact le_max_left 1 _
  · intro h
    rw [← edge_burn_duration a b s hs]
    unfold edge
    simp only [h, if_true]
  · intro h1 h2
    rw [← edge_cruise_duration a b s hs]
    unfold edge
    simp only [h1, if_false, h2, if_true]
  · intro h
    have h2 : ¬ 2 * a.distance b ≤ F := by
      intro hc
      apply h
      have hd : 0 ≤ a.distance b := by
        unfold Waypoint.distance
        simp only [hab, if_false]
        positivity
      omega
    unfold edge
    simp only [h2, if_false, h, if_false]
  · intro c
    unfold Waypoint.distance
    simp

/-- Witness for C1 at the concrete input A, B, s = 10, F = 100. -/
theorem edge_selection_witness : 1 ≤ wpA.distance wpB :=
  (edge_selection wpA wpB 10 100 (by decide) (by decide)).1

/-! ## Route computation (Pathfinding::get_route, src/pathfinding.rs) -/

/-- First element minimizing the key, as Rust `Iterator::min_by_key`
(ties resolved to the earliest element). -/
def minByKeyFirst {α : Type} (key : α → Int) : List α → Option α
  | [] => none
  | x :: xs =>
    match minByKeyFirst key xs with
    | none => some x
    | some y => if key x ≤ key y then some x else some y

/-- Lookup of a waypoint by symbol (the BTreeMap `waypoints` keyed by
symbol; the list stands for the map in ascending symbol order). -/
def findWp (wps : List Waypoint) (s : String) : Option Waypoint :=
  wps.find? (fun w => w.symbol == s)

/-- The closest-market table entry built by Pathfinding::new (lines 26-49):
for a waypoint, the market waypoint minimizing the distance, with that
distance, or none when the system has no market. -/
def closestMarket (wps : List Waypoint) (w : Waypoint) : Option (String × Int) :=
  minByKeyFirst (fun p => p.2)
    ((wps.filter (fun m => m.isMarket)).map (fun m => (m.symbol, w.distance m)))

/-- Failure of Pathfinding::get_route.  The implementation aborts on
failure (Rust expect / unwrap / assert panics); `panicked` embeds those
aborts with their panic message.  The `noRoute` constructor expresses the
recoverable error result that the specification claims for the no-path
case; the implementation never constructs it. -/
inductive RouteErr
  | panicked (msg : String)
  | noRoute
deriving DecidableEq, Repr

/-- src/pathfinding.rs Route: hop list with
`(next waypoint, edge, src is market, dst is market)` per hop. -/
structure Route where
  hops : List (String × Edge × Bool × Bool)
  minTravelDuration : Int
  reqTerminalFuel : Int
deriving DecidableEq, Repr

/-- `req_escape_fuel` (lines 73-83): 0 for a market destination, the
distance to the closest market (a Cruise fuel cost) for a non-market
destination, and the panic `No market` when no market exists at all. -/
def reqEscapeFuel (wps : List Waypoint) (dst : Waypoint) : Except RouteErr Int :=
  if dst.isMarket then .ok 0
  else
    match closestMarket wps dst with
    | some c => .ok c.2
    | none => .error (.panicked "No market")

/-- The dijkstra successor closure of get_route (lines 90-142): market to
market edges under `fuel_capacity`; from a non-market source, edges to
every market under `start_fuel`; from any node other than a non-market
destination, an edge to that destination under
`fuel_capacity - req_escape_fuel`; and the direct non-market to non-market
edge under `start_fuel - req_escape_fuel`. -/
def routeSuccessors (wps : List Waypoint) (srcSym destSym : String)
    (srcIsMarket destIsMarket : Bool) (speed startFuel fuelCap reqEscape : Int)
    (xSym : String) : List (String × Int) :=
  match findWp wps xSym with
  | none => []
  | some x =>
    let base :=
      if x.isMarket then
        (wps.filter (fun y => y.isMarket)).filterMap (fun y =>
          if xSym == y.symbol then none
          else (edge x y speed fuelCap).map (fun e => (y.symbol, e.travelDuration)))
      else []
    let base :=
      if !srcIsMarket && xSym == srcSym then
        base ++ (wps.filter (fun y => y.isMarket)).filterMap (fun y =>
          (edge x y speed startFuel).map (fun e => (y.symbol, e.travelDuration)))
      else base
    let base :=
      if !destIsMarket && xSym != destSym then
        match findWp wps destSym with
        | some dst =>
          match edge x dst speed (fuelCap - reqEscape) with
          | some e => base ++ [(destSym, e.travelDuration)]
          | none => base
        | none => base
      else base
    if !srcIsMarket && !destIsMarket && xSym == srcSym then
      match findWp wps srcSym, findWp wps destSym with
      | some src, some dst =>
        match edge src dst speed (startFuel - reqEscape) with
        | some e => base ++ [(destSym, e.travelDuration)]
        | none => base
      | _, _ => base
    else base

/-- Remove the first frontier entry with minimal cost (the binary-heap pop
of the dijkstra in the `pathfinding` crate). -/
def extractMin : List (String × Int × List String) →
    Option ((String × Int × List String) × List (String × Int × List String))
  | [] => none
  | e :: rest =>
    match extractMin rest with
    | none => some (e, [])
    | some (m, others) => if e.2.1 ≤ m.2.1 then some (e, rest) else some (m, e :: others)

/-- Dijkstra over symbol nodes: frontier entries are
`(node, cost, reverse path to the node, node excluded)`.  Returns the path
(start included) and its cost, or none when the goal is unreachable.  The
fuel argument only bounds the recursion; `dijkstraFuel` always supplies
enough of it. -/
def dijkstraGo (succ : String → List (String × Int)) (goal : String) :
    Nat → List (String × Int × List String) → List String → Option (List String × Int)
  | 0, _, _ => none
  | fuel + 1, frontier, visited =>
    match extractMin frontier with
    | none => none
    | some ((n, c, revPath), rest) =>
      if visited.contains n then dijkstraGo succ goal fuel rest visited
      else if n == goal then some ((n :: revPath).reverse, c)
      else
        let next := (succ n).filterMap (fun p =>
          if visited.contains p.1 then none else some (p.1, c + p.2, n :: revPath))
        dijkstraGo succ goal fuel (rest ++ next) (n :: visited)

/-- Enough dijkstra iterations for a waypoint set: each iteration pops one
frontier entry, and at most `1 + n * (n + 3)` entries are ever pushed. -/
def dijkstraFuel (wps : List Waypoint) : Nat :=
  (wps.length + 4) * (wps.length + 4)

/-- The budget of a reconstructed hop (lines 154-159), from the market
flags of its two endpoints. -/
def hopFuelMax (aMarket bMarket : Bool) (startFuel fuelCap reqEscape : Int) : Int :=
  match aMarket, bMarket with
  | true, true => fuelCap
  | true, false => fuelCap - reqEscape
  | false, true => startFuel
  | false, false => startFuel - reqEscape

/-- Hop reconstruction over the dijkstra path (lines 147-163): each
adjacent pair becomes `(next symbol, edge, src market flag, dst market
flag)` where the edge is recomputed under the budget of `hopFuelMax`; the
`.unwrap()` on a missing edge or waypoint is a panic. -/
def buildHops (wps : List Waypoint) (speed startFuel fuelCap reqEscape : Int) :
    List String → Except RouteErr (List (String × Edge × Bool × Bool))
  | [] => .ok []
  | [_] => .ok []
  | a :: b :: rest =>
    match findWp wps a, findWp wps b with
    | some wa, some wb =>
      match edge wa wb speed (hopFuelMax wa.isMarket wb.isMarket startFuel fuelCap reqEscape) with
      | some e =>
        match buildHops wps speed startFuel fuelCap reqEscape (b :: rest) with
        | .ok hops => .ok ((b, e, wa.isMarket, wb.isMarket) :: hops)
        | .error er => .error er
      | none => .error (.panicked "unwrap on None")
    | _, _ => .error (.panicked "unwrap on None")

/-- Pathfinding::get_route (lines 51-169).  Looks up the endpoints,
resolves the escape fuel, runs dijkstra under the successor closure and
reconstructs the hops; every failure of the implementation is a panic
(`expect("No path found")`, `expect("No market")`, `unwrap()`). -/
def getRoute (wps : List Waypoint) (srcSym destSym : String)
    (speed startFuel fuelCap : Int) : Except RouteErr Route :=
  match findWp wps srcSym with
  | none => .error (.panicked "unwrap on None")
  | some src =>
    match findWp wps destSym with
    | none => .error (.panicked "unwrap on None")
    | some dst =>
      match reqEscapeFuel wps dst with
      | .error e => .error e
      | .ok reqEscape =>
        match dijkstraGo
            (routeSuccessors wps srcSym destSym src.isMarket dst.isMarket
              speed startFuel fuelCap reqEscape)
            destSym (dijkstraFuel wps) [(srcSym, 0, [])] [] with
        | none => .error (.panicked "No path found")
        | some (path, cost) =>
          match buildHops wps speed startFuel fuelCap reqEscape path with
          | .ok hops =>
            .ok { hops := hops, minTravelDuration := cost, reqTerminalFuel := reqEscape }
          | .error er => .error er

deriving instance DecidableEq for Except

theorem edge_fuelCost_le (a b : Waypoint) (s F : Int) (e : Edge)
    (h : edge a b s F = some e) : e.fuelCost ≤ F := by
  unfold edge at h
  split_ifs at h with h1 h2
  · cases h
    exact h1
  · cases h
    exact h2

theorem buildHops_budget (wps : List Waypoint) (speed sf fc re : Int) :
    ∀ (l : List String) (hops : List (String × Edge × Bool × Bool)),
      buildHops wps speed sf fc re l = .ok hops →
      ∀ hop ∈ hops, hop.2.1.fuelCost ≤ hopFuelMax hop.2.2.1 hop.2.2.2 sf fc re
  | [], hops, h => by
    unfold buildHops at h
    cases h
    intro hop hmem
    cases hmem
  | [a], hops, h => by
    unfold buildHops at h
    cases h
    intro hop hmem
    cases hmem
  | a :: b :: rest, hops, h => by
    unfold buildHops at h
    split at h
    case _ wa wb hfa hfb =>
      split at h
      case _ e he =>
        split at h
        case _ hops2 hrec =>
          cases h
          intro hop hmem
          rcases List.mem_cons.mp hmem with hhead | htail
          · subst hhead
            exact edge_fuelCost_le wa wb speed _ e he
          · exact buildHops_budget wps speed sf fc re (b :: rest) hops2 hrec hop htail
        case _ er hrec => cases h
      case _ he => cases h
    case _ h1 => cases h

/-- C7: every hop of a route returned by get_route has fuel cost at most
its budget, where the budget is fuel capacity for a market to market hop,
start fuel when leaving a non-market waypoint for a market, fuel capacity
minus the escape fuel for a market to non-market hop, and start fuel minus
the escape fuel for a direct non-market to non-market hop; the escape fuel
is 0 when the destination is a market and the Cruise cost (distance) from
the destination to its closest market otherwise. -/
theorem route_hop_budget (wps : List Waypoint) (srcSym destSym : String)
    (speed startFuel fuelCap : Int) (r : Route)
    (h : getRoute wps srcSym destSym speed startFuel fuelCap = .ok r) :
    (∀ hop ∈ r.hops,
      hop.2.1.fuelCost ≤ hopFuelMax hop.2.2.1 hop.2.2.2 startFuel fuelCap r.reqTerminalFuel) ∧
    (∀ w, findWp wps destSym = some w →
      (w.isMarket = true → r.reqTerminalFuel = 0) ∧
      (w.isMarket = false →
        ∃ c, closestMarket wps w = some c ∧ r.reqTerminalFuel = c.2)) := by
  unfold getRoute at h
  split at h
  case _ => cases h
  case _ src hsrc =>
    split at h
    case _ => cases h
    case _ dst hdst =>
      split at h
      case _ => cases h
      case _ re hre =>
        split at h
        case _ => cases h
        case _ path cost hdij =>
          split at h
          case _ hops hbuild =>
            cases h
            constructor
            · exact buildHops_budget wps speed startFuel fuelCap re path hops hbuild
            · intro w hw
              rw [hdst] at hw
              cases hw
              unfold reqEscapeFuel at hre
              constructor
              · intro hm
                rw [hm] at hre
                simp at hre
                show re = 0
                omega
              · intro hm
                rw [hm] at hre
                simp only [Bool.false_eq_true, if_false] at hre
                split at hre
                case _ c hc =>
                  cases hre
                  exact ⟨c, hc, rfl⟩
                case _ => cases hre
          case _ => cases h

/-- The direct A to B route used to witness C7: one Burn hop. -/
def routeAB : Route :=
  { hops := [("B", { distance := 50, travelDuration := 78, fuelCost := 100, flightMode := .burn }, true, true)]
    minTravelDuration := 78
    reqTerminalFuel := 0 }

/-- Witness for C7 on the concrete two-market system A, B. -/
theorem route_hop_budget_witness :
    (("B", ({ distance := 50, travelDuration := 78, fuelCost := 100, flightMode := .burn } : Edge),
        true, true) : String × Edge × Bool × Bool).2.1.fuelCost
      ≤ hopFuelMax true true 100 100 0 := by
  have h := route_hop_budget [wpA, wpB] "A" "B" 10 100 100 routeAB (by decide)
  exact h.1 _ (by decide)

/-- A non-market waypoint with no fuel to leave it (C3 no-path scenario). -/
def wpN : Waypoint := { symbol := "N", x := 0, y := 0, isMarket := false }

/-- A market at distance 10 from `wpN` (C3 no-path scenario). -/
def wpM : Waypoint := { symbol := "M", x := 10, y := 0, isMarket := true }

/-- Counterexample to C3 as stated: on a system where no path exists
(start fuel 0 from a non-market waypoint), get_route aborts with the panic
`No path found` (the `expect` at src/pathfinding.rs line 145); it does not
fail with a recoverable NoRoute error result. -/
theorem getRoute_no_path_panics_cex :
    getRoute [wpN, wpM] "N" "M" 1 0 100 = .error (.panicked "No path found") ∧
    ¬ getRoute [wpN, wpM] "N" "M" 1 0 100 = .error .noRoute := by
  constructor
  · decide
  · decide

/-- C3 (amended): whenever the edge rules admit no path (the dijkstra
search returns none), get_route panics with the message `No path found`:
the failure is a process abort, not a recoverable NoRoute error. -/
theorem getRoute_no_path (wps : List Waypoint) (srcSym destSym : String)
    (speed startFuel fuelCap : Int) (src dst : Waypoint) (re : Int)
    (hsrc : findWp wps srcSym = some src)
    (hdst : findWp wps destSym = some dst)
    (hre : reqEscapeFuel wps dst = .ok re)
    (hdij : dijkstraGo
        (routeSuccessors wps srcSym destSym src.isMarket dst.isMarket
          speed startFuel fuelCap re)
        destSym (dijkstraFuel wps) [(srcSym, 0, [])] [] = none) :
    getRoute wps srcSym destSym speed startFuel fuelCap
      = .error (.panicked "No path found") := by
  unfold getRoute
  simp only [hsrc, hdst, hre, hdij]

/-- Witness for the amended C3 at the concrete no-path system. -/
theorem getRoute_no_path_witness :
    getRoute [wpN, wpM] "N" "M" 1 0 100 = .error (.panicked "No path found") :=
  getRoute_no_path [wpN, wpM] "N" "M" 1 0 100 wpN wpM 0
    (by decide) (by decide) (by decide) (by decide)

/-! ## Logistic task manager (src/tasks.rs) -/

/-- Trade categories of a market good (models::MarketType). -/
inductive MarketType
  | importType
  | exportType
  | exchange
deriving DecidableEq, Repr

/-- Modelled from the spec: supply levels of a market good in ascending
declaration order Scarce, Limited, Moderate, High, Abundant (the derived
Rust Ord on models::MarketSupply; the models module is outside the given
sources).  Comparisons go through `rank`. -/
inductive MarketSupply
  | scarce
  | limited
  | moderate
  | high
  | abundant
deriving DecidableEq, Repr

/-- Position of a supply level in the ascending declaration order. -/
def MarketSupply.rank : MarketSupply → Nat
  | .scarce => 0
  | .limited => 1
  | .moderate => 2
  | .high => 3
  | .abundant => 4

/-- Modelled from the spec: activity levels of a market good (the Rust
models::MarketActivity, outside the given sources). -/
inductive MarketActivity
  | restricted
  | weak
  | growing
  | strong
deriving DecidableEq, Repr

/-- One good of a market snapshot (models::MarketTradeGood restricted to
the fields src/tasks.rs reads; `mtype` embeds the `_type` field). -/
structure TradeGood where
  symbol : String
  mtype : MarketType
  supply : MarketSupply
  activity : Option MarketActivity
  tradeVolume : Int
  purchasePrice : Int
  sellPrice : Int
deriving DecidableEq, Repr

/-- The actions of the task vocabulary that the verified claims use. -/
inductive TaskAction
  | refreshMarket
  | buyGoods (good : String) (units : Int)
  | sellGoods (good : String) (units : Int)
deriving DecidableEq, Repr

/-- logistics_planner::TaskActions. -/
inductive TaskActions
  | visitLocation (waypoint : String) (action : TaskAction)
  | transportCargo (src dest : String) (srcAction destAction : TaskAction)
deriving DecidableEq, Repr

/-- logistics_planner::Task: stable id, actions and a monetary value. -/
structure Task where
  id : String
  actions : TaskActions
  value : Int
deriving DecidableEq, Repr

/-- A market of the system as generate_task_list sees it: the remote
(static) import/export lists, and the age in whole seconds of the latest
snapshot (`now.signed_duration_since(timestamp).num_seconds()`), or none
when the market was never sampled. -/
structure MarketInfo where
  symbol : String
  remoteImports : List String
  remoteExports : List String
  snapshotAge : Option Int
deriving DecidableEq, Repr

/-- The market refresh reward (src/tasks.rs lines 385-398): none below 15
minutes of age (skip), 1000 from 15 to 30 minutes, the ramp
`1000 + (minutes - 30) * (4000 / 30)` truncated to an integer from 30 to
60 minutes, 5000 from 60 minutes on, and 5000 for a never sampled market.
The f64 comparisons on `minutes = age / 60` are embedded as the equivalent
integer comparisons on the age in seconds, and the f64-to-i64 cast of the
ramp (truncation of a nonnegative value) as the equivalent integer
division `1000 + 20 * (age - 1800) / 9` (see `marketRefreshValue_ramp`). -/
def marketRefreshValue (snapshotAge : Option Int) : Option Int :=
  match snapshotAge with
  | none => some 5000
  | some age =>
    if age < 900 then none
    else if age < 1800 then some 1000
    else if age < 3600 then some (1000 + 20 * (age - 1800) / 9)
    else some 5000

theorem marketRefreshValue_some (age : Int) :
    marketRefreshValue (some age)
      = if age < 900 then none
        else if age < 1800 then some 1000
        else if age < 3600 then some (1000 + 20 * (age - 1800) / 9)
        else some 5000 := rfl

/-- On the 30 to 60 minute ramp the embedded value is exactly the floor of
the claim formula `1000 + (age_minutes - 30) * (4000 / 30)`. -/
theorem marketRefreshValue_ramp (age : Int) (h1 : 1800 ≤ age) (h2 : age < 3600) :
    marketRefreshValue (some age)
      = some ⌊(1000 : ℚ) + ((age : ℚ) / 60 - 30) * (4000 / 30)⌋ := by
  show (if age < 900 then none
    else if age < 1800 then some 1000
    else if age < 3600 then some (1000 + 20 * (age - 1800) / 9)
    else some 5000)
    = some ⌊(1000 : ℚ) + ((age : ℚ) / 60 - 30) * (4000 / 30)⌋
  rw [if_neg (by omega), if_neg (by omega), if_pos h2]
  congr 1
  have harg : (1000 : ℚ) + ((age : ℚ) / 60 - 30) * (4000 / 30)
      = 1000 + ((20 * (age - 1800) : ℤ) : ℚ) / ((9 : ℕ) : ℚ) := by
    push_cast
    ring
  rw [harg, show ((1000 : ℚ)) = (((1000 : ℤ) : ℚ)) from by norm_cast,
    Int.floor_int_add, Rat.floor_intCast_div_natCast]
  norm_num

/-- The RefreshMarket section of generate_task_list (src/tasks.rs lines
375-407): for each market of the system, skip it when a probe covers its
waypoint or when it is pure exchange (no remote imports and no remote
exports), otherwise emit a `refreshmarket_<wp>` VisitLocation task valued
by `marketRefreshValue` (skipping the market when that is none). -/
def refreshMarketTasks (sysPref : String) (probeLocations : List String)
    (markets : List MarketInfo) : List Task :=
  markets.filterMap (fun m =>
    if probeLocations.contains m.symbol
        || (m.remoteExports.isEmpty && m.remoteImports.isEmpty) then
      none
    else
      (marketRefreshValue m.snapshotAge).map (fun v =>
        { id := sysPref ++ "refreshmarket_" ++ m.symbol
          actions := .visitLocation m.symbol .refreshMarket
          value := v }))

/-- A market whose snapshot is exactly 15 minutes old (900 seconds), not
probed, not pure exchange. -/
def mktAge15 : MarketInfo :=
  { symbol := "X1-A", remoteImports := ["FOOD"], remoteExports := [], snapshotAge := some 900 }

/-- Counterexample to C2 as stated: at a snapshot age of exactly 15
minutes the RefreshMarket task is emitted with value 1000; it is not
skipped (the skip arm of the match at src/tasks.rs line 390 is the
half-open range `f64::MIN..15.`, exclusive at 15). -/
theorem market_refresh_age15_cex :
    refreshMarketTasks "" [] [mktAge15]
      = [{ id := "refreshmarket_X1-A"
           actions := .visitLocation "X1-A" .refreshMarket
           value := 1000 }] := by
  decide

/-- C2 (amended): for every market of the system that is neither covered
by an assigned probe nor pure-exchange, generate_task_list emits a
RefreshMarket task whose value is determined by snapshot age: no task
when age < 15 minutes; value 1000 from exactly 15 minutes up to 30
minutes (value 1000 at exactly 30 minutes); the truncated ramp value
`1000 + (age - 30) * (4000 / 30)` from 30 to 60 minutes; 5000 at 60
minutes and beyond; and 5000 when the market has never been sampled. -/
theorem market_refresh_staleness (sysPref : String) (probes : List String)
    (markets : List MarketInfo) (m : MarketInfo)
    (hm : m ∈ markets)
    (hprobe : probes.contains m.symbol = false)
    (hpure : (m.remoteExports.isEmpty && m.remoteImports.isEmpty) = false)
    (hnodup : (markets.map (fun x => x.symbol)).Nodup) :
    ((∀ age : Int, m.snapshotAge = some age → age < 900 →
        ∀ t ∈ refreshMarketTasks sysPref probes markets,
          t.actions ≠ .visitLocation m.symbol .refreshMarket) ∧
     (∀ v, marketRefreshValue m.snapshotAge = some v →
        { id := sysPref ++ "refreshmarket_" ++ m.symbol
          actions := TaskActions.visitLocation m.symbol .refreshMarket
          value := v } ∈ refreshMarketTasks sysPref probes markets)) ∧
    (marketRefreshValue (some 900) = some 1000 ∧
     (∀ age : Int, 900 ≤ age → age < 1800 → marketRefreshValue (some age) = some 1000) ∧
     marketRefreshValue (some 1800) = some 1000 ∧
     (∀ age : Int, 1800 ≤ age → age < 3600 →
        marketRefreshValue (some age)
          = some ⌊(1000 : ℚ) + ((age : ℚ) / 60 - 30) * (4000 / 30)⌋) ∧
     (∀ age : Int, 3600 ≤ age → marketRefreshValue (some age) = some 5000) ∧
     marketRefreshValue none = some 5000) := by
  refine ⟨⟨?_, ?_⟩, ?_, ?_, ?_, marketRefreshValue_ramp, ?_, rfl⟩
  · intro age hage hlt t ht hact
    obtain ⟨m2, hm2, hf⟩ := List.mem_filterMap.mp ht
    by_cases hcond : (probes.contains m2.symbol
        || (m2.remoteExports.isEmpty && m2.remoteImports.isEmpty)) = true
    · rw [if_pos hcond] at hf
      cases hf
    · rw [if_neg hcond] at hf
      obtain ⟨v2, hv2, hmap⟩ := Option.map_eq_some'.mp hf
      have hacts : t.actions = .visitLocation m2.symbol .refreshMarket := by
        rw [← hmap]
      rw [hacts] at hact
      have hsym : m2.symbol = m.symbol := by
        injection hact with h1 h2
      have hmm : m2 = m :=
        List.inj_on_of_nodup_map hnodup hm2 hm hsym
      subst hmm
      rw [hage, marketRefreshValue_some, if_pos hlt] at hv2
      cases hv2
  · intro v hv
    refine List.mem_filterMap.mpr ⟨m, hm, ?_⟩
    rw [if_neg (by rw [hprobe, hpure]; simp), hv]
    rfl
  · rw [marketRefreshValue_some]
    norm_num
  · intro age h1 h2
    rw [marketRefreshValue_some, if_neg (by omega), if_pos (by omega)]
  · rw [marketRefreshValue_some]
    norm_num
  · intro age h1
    rw [marketRefreshValue_some, if_neg (by omega), if_neg (by omega), if_neg (by omega)]

/-- A market that has never been sampled, not probed, not pure
exchange. -/
def mktNever : MarketInfo :=
  { symbol := "X1-B", remoteImports := ["FOOD"], remoteExports := [], snapshotAge := none }

/-- Witness for the amended C2: the never-sampled market gets a
RefreshMarket task of value 5000. -/
theorem market_refresh_staleness_witness :
    { id := "refreshmarket_X1-B"
      actions := TaskActions.visitLocation "X1-B" TaskAction.refreshMarket
      value := (5000 : Int) } ∈ refreshMarketTasks "" [] [mktNever] :=
  (market_refresh_staleness "" [] [mktNever] mktNever (by decide) (by decide)
    (by decide) (by decide)).1.2 5000 (by decide)

/-! ## Arbitrage trade generation (src/tasks.rs lines 429-526) -/

theorem minByKeyFirst_eq_none {α : Type} (key : α → Int) (l : List α) :
    minByKeyFirst key l = none ↔ l = [] := by
  cases l with
  | nil => simp [minByKeyFirst]
  | cons x xs =>
    constructor
    · intro h
      exfalso
      unfold minByKeyFirst at h
      cases hrec : minByKeyFirst key xs with
      | none =>
        rw [hrec] at h
        dsimp only at h
        cases h
      | some z =>
        rw [hrec] at h
        dsimp only at h
        by_cases hk : key x ≤ key z
        · rw [if_pos hk] at h; cases h
        · rw [if_neg hk] at h; cases h
    · intro h
      cases h

theorem minByKeyFirst_mem {α : Type} (key : α → Int) :
    ∀ (l : List α) (y : α), minByKeyFirst key l = some y → y ∈ l
  | [], y, h => by cases h
  | x :: xs, y, h => by
    unfold minByKeyFirst at h
    cases hrec : minByKeyFirst key xs with
    | none =>
      rw [hrec] at h
      dsimp only at h
      injection h with h
      subst h
      exact List.mem_cons_self x xs
    | some z =>
      rw [hrec] at h
      dsimp only at h
      by_cases hk : key x ≤ key z
      · rw [if_pos hk] at h
        injection h with h
        subst h
        exact List.mem_cons_self x xs
      · rw [if_neg hk] at h
        injection h with h
        subst h
        exact List.mem_cons_of_mem x (minByKeyFirst_mem key xs _ hrec)

theorem minByKeyFirst_le {α : Type} (key : α → Int) :
    ∀ (l : List α) (y : α), minByKeyFirst key l = some y →
      ∀ x ∈ l, key y ≤ key x
  | [], y, h => by cases h
  | x :: xs, y, h => by
    unfold minByKeyFirst at h
    cases hrec : minByKeyFirst key xs with
    | none =>
      rw [hrec] at h
      dsimp only at h
      injection h with h
      subst h
      have hxs : xs = [] := (minByKeyFirst_eq_none key xs).mp hrec
      subst hxs
      intro z hz
      rcases List.mem_cons.mp hz with h1 | h1
      · rw [h1]
      · cases h1
    | some z =>
      rw [hrec] at h
      dsimp only at h
      intro w hw
      have ihz := minByKeyFirst_le key xs z hrec
      by_cases hk : key x ≤ key z
      · rw [if_pos hk] at h
        injection h with h
        subst h
        rcases List.mem_cons.mp hw with h1 | h1
        · rw [h1]
        · exact le_trans hk (ihz w h1)
      · rw [if_neg hk] at h
        injection h with h
        subst h
        rcases List.mem_cons.mp hw with h1 | h1
        · rw [h1]; omega
        · exact ihz w h1

/-- Last element maximizing the key, as Rust `Iterator::max_by_key`
(ties resolved to the latest element). -/
def maxByKeyLast {α : Type} (key : α → Int) : List α → Option α
  | [] => none
  | x :: xs =>
    match maxByKeyLast key xs with
    | none => some x
    | some y => if key x > key y then some x else some y

theorem maxByKeyLast_eq_none {α : Type} (key : α → Int) (l : List α) :
    maxByKeyLast key l = none ↔ l = [] := by
  cases l with
  | nil => simp [maxByKeyLast]
  | cons x xs =>
    constructor
    · intro h
      exfalso
      unfold maxByKeyLast at h
      cases hrec : maxByKeyLast key xs with
      | none =>
        rw [hrec] at h
        dsimp only at h
        cases h
      | some z =>
        rw [hrec] at h
        dsimp only at h
        by_cases hk : key x > key z
        · rw [if_pos hk] at h; cases h
        · rw [if_neg hk] at h; cases h
    · intro h
      cases h

theorem maxByKeyLast_mem {α : Type} (key : α → Int) :
    ∀ (l : List α) (y : α), maxByKeyLast key l = some y → y ∈ l
  | [], y, h => by cases h
  | x :: xs, y, h => by
    unfold maxByKeyLast at h
    cases hrec : maxByKeyLast key xs with
    | none =>
      rw [hrec] at h
      dsimp only at h
      injection h with h
      subst h
      exact List.mem_cons_self x xs
    | some z =>
      rw [hrec] at h
      dsimp only at h
      by_cases hk : key x > key z
      · rw [if_pos hk] at h
        injection h with h
        subst h
        exact List.mem_cons_self x xs
      · rw [if_neg hk] at h
        injection h with h
        subst h
        exact List.mem_cons_of_mem x (maxByKeyLast_mem key xs _ hrec)

theorem maxByKeyLast_ge {α : Type} (key : α → Int) :
    ∀ (l : List α) (y : α), maxByKeyLast key l = some y →
      ∀ x ∈ l, key x ≤ key y
  | [], y, h => by cases h
  | x :: xs, y, h => by
    unfold maxByKeyLast at h
    cases hrec : maxByKeyLast key xs with
    | none =>
      rw [hrec] at h
      dsimp only at h
      injection h with h
      subst h
      have hxs : xs = [] := (maxByKeyLast_eq_none key xs).mp hrec
      subst hxs
      intro z hz
      rcases List.mem_cons.mp hz with h1 | h1
      · rw [h1]
      · cases h1
    | some z =>
      rw [hrec] at h
      dsimp only at h
      intro w hw
      have ihz := maxByKeyLast_ge key xs z hrec
      by_cases hk : key x > key z
      · rw [if_pos hk] at h
        injection h with h
        subst h
        rcases List.mem_cons.mp hw with h1 | h1
        · rw [h1]
        · exact le_trans (ihz w h1) (le_of_lt hk)
      · rw [if_neg hk] at h
        injection h with h
        subst h
        rcases List.mem_cons.mp hw with h1 | h1
        · rw [h1]; omega
        · exact ihz w h1

/-- The buy-side filter of the arbitrage loop (src/tasks.rs lines
442-455): never an Import; an Export needs supply at least High for a
non-constant-flow good with Strong activity and supply at least Moderate
otherwise; an Exchange always qualifies. -/
def buyCondition (reqConstantFlow : Bool) (t : TradeGood) : Bool :=
  match t.mtype with
  | .importType => false
  | .exportType =>
    if !reqConstantFlow && t.activity == some .strong then
      decide (MarketSupply.high.rank ≤ t.supply.rank)
    else
      decide (MarketSupply.moderate.rank ≤ t.supply.rank)
  | .exchange => true

/-- The buy-side candidate markets of a good. -/
def buyCandidates (reqConstantFlow : Bool) (trades : List (String × TradeGood)) :
    List (String × TradeGood) :=
  trades.filter (fun p => buyCondition reqConstantFlow p.2)

/-- `buy_trade_good`: the candidate minimizing the purchase price
(`min_by_key`, first on ties). -/
def buyTradeGood (reqConstantFlow : Bool) (trades : List (String × TradeGood)) :
    Option (String × TradeGood) :=
  minByKeyFirst (fun p => p.2.purchasePrice) (buyCandidates reqConstantFlow trades)

/-- The per-market import-cap filter of the sell side (src/tasks.rs lines
457-478).  A trade at a capped (market, good) pair must be an Import (the
`assert_eq!` panics otherwise, embedded as none); once the trade volume
reaches the cap the supply must be at most Limited; uncapped trades always
pass. -/
def evoCapCheck (caps : List ((String × String) × Int)) (good marketSymbol : String)
    (t : TradeGood) : Option Bool :=
  match caps.find? (fun c => c.1.1 == marketSymbol && c.1.2 == good) with
  | none => some true
  | some c =>
    if t.mtype ≠ .importType then none
    else if c.2 ≤ t.tradeVolume then
      some (decide (t.supply.rank ≤ MarketSupply.limited.rank))
    else some true

/-- The sell-side type filter (src/tasks.rs lines 479-483): an Import
needs supply at most Moderate, an Export never qualifies, an Exchange
always does. -/
def sellTypeCondition (t : TradeGood) : Bool :=
  match t.mtype with
  | .importType => decide (t.supply.rank ≤ MarketSupply.moderate.rank)
  | .exportType => false
  | .exchange => true

/-- The good-specific allowlist filter (src/tasks.rs lines 484-487): with
an allowlist, only the listed markets qualify; without one every market
does. -/
def permitCondition (permits : Option (List String)) (marketSymbol : String) : Bool :=
  match permits with
  | some allow => allow.contains marketSymbol
  | none => true

/-- The sell-side candidate markets of a good, after the import-cap, type
and allowlist filters (in the order of the source). -/
def sellCandidates (good : String) (permits : Option (List String))
    (caps : List ((String × String) × Int)) (trades : List (String × TradeGood)) :
    List (String × TradeGood) :=
  ((trades.filter (fun p => (evoCapCheck caps good p.1 p.2).getD false)).filter
    (fun p => sellTypeCondition p.2)).filter (fun p => permitCondition permits p.1)

/-- `sell_trade_good`: the candidate maximizing the sell price
(`max_by_key`, last on ties); the import-cap assert panics (error) when
any trade with a cap entry is not an Import. -/
def sellTradeGood (good : String) (permits : Option (List String))
    (caps : List ((String × String) × Int)) (trades : List (String × TradeGood)) :
    Except String (Option (String × TradeGood)) :=
  if trades.any (fun p => (evoCapCheck caps good p.1 p.2).isNone) then
    .error "assert failed: Only import trades should have an import evolution cap"
  else
    .ok (maxByKeyLast (fun p => p.2.sellPrice) (sellCandidates good permits caps trades))

/-- The arbitrage task of one good (src/tasks.rs lines 489-526): when both
a buy and a sell candidate exist, trade
`units = min (min buyTV sellTV) capacityCap` for profit
`(sellPrice - purchasePrice) * units`, emitted as `trade_<good>` exactly
when the profit reaches `min_profit`. -/
def tradeTaskForGood (sysPref good : String) (reqConstantFlow : Bool)
    (permits : Option (List String)) (caps : List ((String × String) × Int))
    (capacityCap minProfit : Int) (trades : List (String × TradeGood)) :
    Except String (Option Task) :=
  match sellTradeGood good permits caps trades with
  | .error e => .error e
  | .ok sellOpt =>
    match buyTradeGood reqConstantFlow trades, sellOpt with
    | some buy, some sell =>
      if minProfit ≤ (sell.2.sellPrice - buy.2.purchasePrice)
          * min (min buy.2.tradeVolume sell.2.tradeVolume) capacityCap then
        .ok (some
          { id := sysPref ++ "trade_" ++ good
            actions := .transportCargo buy.1 sell.1
              (.buyGoods good (min (min buy.2.tradeVolume sell.2.tradeVolume) capacityCap))
              (.sellGoods good (min (min buy.2.tradeVolume sell.2.tradeVolume) capacityCap))
            value := (sell.2.sellPrice - buy.2.purchasePrice)
              * min (min buy.2.tradeVolume sell.2.tradeVolume) capacityCap })
      else .ok none
    | _, _ => .ok none

theorem buyCondition_iff (reqCF : Bool) (t : TradeGood) :
    buyCondition reqCF t = true ↔
      (t.mtype = .exchange ∨ (t.mtype = .exportType ∧
        (if reqCF = false ∧ t.activity = some .strong
          then MarketSupply.high.rank ≤ t.supply.rank
          else MarketSupply.moderate.rank ≤ t.supply.rank))) := by
  rcases t with ⟨ts, tm, tsup, tact, ttv, tpp, tsp⟩
  cases tm with
  | importType => simp [buyCondition]
  | exportType =>
    by_cases hr : reqCF = true <;> by_cases ha : tact = some MarketActivity.strong <;>
      simp [buyCondition, hr, ha]
  | exchange => simp [buyCondition]

theorem sellTypeCondition_iff (t : TradeGood) :
    sellTypeCondition t = true ↔
      (t.mtype = .exchange ∨
        (t.mtype = .importType ∧ t.supply.rank ≤ MarketSupply.moderate.rank)) := by
  rcases t with ⟨ts, tm, tsup, tact, ttv, tpp, tsp⟩
  cases tm <;> simp [sellTypeCondition]

theorem evoCap_getD_iff (caps : List ((String × String) × Int)) (good ms : String)
    (t : TradeGood) :
    (evoCapCheck caps good ms t).getD false = true ↔ evoCapCheck caps good ms t = some true := by
  cases h : evoCapCheck caps good ms t with
  | none => simp
  | some b => cases b <;> simp

/-- Market M1 of the spec arbitrage scenario: Export of good X, supply
High, activity Strong, purchase 100, trade volume 60. -/
def tradeM1 : TradeGood :=
  { symbol := "X", mtype := .exportType, supply := .high, activity := some .strong
    tradeVolume := 60, purchasePrice := 100, sellPrice := 120 }

/-- Market M2 of the spec arbitrage scenario: Import of good X, supply
Limited, sell 160, trade volume 40. -/
def tradeM2 : TradeGood :=
  { symbol := "X", mtype := .importType, supply := .limited, activity := none
    tradeVolume := 40, purchasePrice := 170, sellPrice := 160 }

/-- The trades of good X in the spec arbitrage scenario. -/
def tradesM1M2 : List (String × TradeGood) := [("M1", tradeM1), ("M2", tradeM2)]

/-- The task the spec arbitrage scenario expects. -/
def tradeTaskX : Task :=
  { id := "trade_X"
    actions := .transportCargo "M1" "M2" (.buyGoods "X" 40) (.sellGoods "X" 40)
    value := 2400 }

/-- C4: the buy market minimizes purchasePrice among Exchange markets and
Export markets meeting the supply condition (supply at least High for
non-constant-flow goods with Strong activity, at least Moderate
otherwise); the sell market maximizes sellPrice among Exchange markets
and Import markets with supply at most Moderate, after the allowlist and
import-cap filters; when both sides exist a TransportCargo task with
`units = min (buyTV, sellTV, capacityCap)` and value
`(sellPrice - purchasePrice) * units` is emitted iff the value reaches
min_profit.  With M1 (Export, High, Strong, purchase 100, TV 60) and M2
(Import, Limited, sell 160, TV 40), capacity 50 and min_profit 1, the
task trade_X is emitted with units 40 and profit 2400. -/
theorem trade_task_selection (sysPref good : String) (reqCF : Bool)
    (permits : Option (List String)) (caps : List ((String × String) × Int))
    (capacityCap minProfit : Int) (trades : List (String × TradeGood))
    (res : Option Task)
    (h : tradeTaskForGood sysPref good reqCF permits caps capacityCap minProfit trades
      = .ok res) :
    (∀ p : String × TradeGood, p ∈ buyCandidates reqCF trades ↔ p ∈ trades ∧
      (p.2.mtype = .exchange ∨ (p.2.mtype = .exportType ∧
        (if reqCF = false ∧ p.2.activity = some .strong
          then MarketSupply.high.rank ≤ p.2.supply.rank
          else MarketSupply.moderate.rank ≤ p.2.supply.rank)))) ∧
    (∀ p : String × TradeGood, p ∈ sellCandidates good permits caps trades ↔ p ∈ trades ∧
      evoCapCheck caps good p.1 p.2 = some true ∧
      (p.2.mtype = .exchange ∨
        (p.2.mtype = .importType ∧ p.2.supply.rank ≤ MarketSupply.moderate.rank)) ∧
      permitCondition permits p.1 = true) ∧
    (∀ t, res = some t →
      ∃ buy sell,
        buy ∈ buyCandidates reqCF trades ∧
        sell ∈ sellCandidates good permits caps trades ∧
        (∀ c ∈ buyCandidates reqCF trades, buy.2.purchasePrice ≤ c.2.purchasePrice) ∧
        (∀ c ∈ sellCandidates good permits caps trades, c.2.sellPrice ≤ sell.2.sellPrice) ∧
        t = { id := sysPref ++ "trade_" ++ good
              actions := .transportCargo buy.1 sell.1
                (.buyGoods good (min (min buy.2.tradeVolume sell.2.tradeVolume) capacityCap))
                (.sellGoods good (min (min buy.2.tradeVolume sell.2.tradeVolume) capacityCap))
              value := (sell.2.sellPrice - buy.2.purchasePrice)
                * min (min buy.2.tradeVolume sell.2.tradeVolume) capacityCap } ∧
        minProfit ≤ t.value) ∧
    (∀ buy sell, buyTradeGood reqCF trades = some buy →
      sellTradeGood good permits caps trades = .ok (some sell) →
      (res.isSome = true ↔
        minProfit ≤ (sell.2.sellPrice - buy.2.purchasePrice)
          * min (min buy.2.tradeVolume sell.2.tradeVolume) capacityCap)) ∧
    tradeTaskForGood "" "X" false none [] 50 1 tradesM1M2 = .ok (some tradeTaskX) := by
  refine ⟨?_, ?_, ?_, ?_, by decide⟩
  · intro p
    rw [buyCandidates, List.mem_filter, buyCondition_iff]
  · intro p
    rw [sellCandidates, List.mem_filter, List.mem_filter, List.mem_filter,
      evoCap_getD_iff, sellTypeCondition_iff]
    tauto
  · intro t ht
    unfold tradeTaskForGood at h
    cases hsell : sellTradeGood good permits caps trades with
    | error e =>
      rw [hsell] at h
      dsimp only at h
      cases h
    | ok sellOpt =>
      rw [hsell] at h
      dsimp only at h
      cases hbuy : buyTradeGood reqCF trades with
      | none =>
        rw [hbuy] at h
        cases sellOpt with
        | none =>
          dsimp only at h
          cases h
          cases ht
        | some sell =>
          dsimp only at h
          cases h
          cases ht
      | some buy =>
        rw [hbuy] at h
        cases sellOpt with
        | none =>
          dsimp only at h
          cases h
          cases ht
        | some sell =>
          dsimp only at h
          have hmax : maxByKeyLast (fun p => p.2.sellPrice)
              (sellCandidates good permits caps trades) = some sell := by
            unfold sellTradeGood at hsell
            by_cases hany :
                (trades.any fun p => (evoCapCheck caps good p.1 p.2).isNone) = true
            · rw [if_pos hany] at hsell
              cases hsell
            · rw [if_neg hany] at hsell
              exact Except.ok.inj hsell
          by_cases hprofit : minProfit ≤ (sell.2.sellPrice - buy.2.purchasePrice)
              * min (min buy.2.tradeVolume sell.2.tradeVolume) capacityCap
          · rw [if_pos hprofit] at h
            cases h
            cases ht
            exact ⟨buy, sell,
              minByKeyFirst_mem _ _ buy hbuy,
              maxByKeyLast_mem _ _ sell hmax,
              minByKeyFirst_le _ _ buy hbuy,
              maxByKeyLast_ge _ _ sell hmax, rfl, hprofit⟩
          · rw [if_neg hprofit] at h
            cases h
            cases ht
  · intro buy sell hbuy hsell2
    unfold tradeTaskForGood at h
    rw [hsell2, hbuy] at h
    dsimp only at h
    by_cases hprofit : minProfit ≤ (sell.2.sellPrice - buy.2.purchasePrice)
        * min (min buy.2.tradeVolume sell.2.tradeVolume) capacityCap
    · rw [if_pos hprofit] at h
      cases h
      simp only [Option.isSome_some, true_iff]
      exact hprofit
    · rw [if_neg hprofit] at h
      cases h
      simp only [Option.isSome_none, Bool.false_eq_true, false_iff]
      exact hprofit

/-- Witness for C4 at the spec arbitrage scenario: the emitted task meets
the min_profit threshold. -/
theorem trade_task_selection_witness : (1 : Int) ≤ tradeTaskX.value := by
  obtain ⟨-, -, h3, -, -⟩ :=
    trade_task_selection "" "X" false none [] 50 1 tradesM1M2 (some tradeTaskX) (by decide)
  obtain ⟨buy, sell, -, -, -, -, -, hval⟩ := h3 tradeTaskX rfl
  exact hval

/-! ## Agent controller: era machine
(src/agent_controller/agent_controller.rs lines 402-449) -/

/-- The era states (AgentEra). -/
inductive AgentEra
  | startingSystem1
  | startingSystem2
  | interSystem1
  | interSystem2
deriving DecidableEq, Repr

/-- Position of an era in the progression order. -/
def AgentEra.rank : AgentEra → Nat
  | .startingSystem1 => 0
  | .startingSystem2 => 1
  | .interSystem1 => 2
  | .interSystem2 => 3

/-- Modelled from the spec: the ledger `available_credits`
(agent_controller/ledger.rs, outside the given sources): the last known
credits minus the effective reserved credits, which with no goods-value
adjustments is the sum of the reservations. -/
def ledgerAvailable (credits : Int) (reservations : List (String × Int)) : Int :=
  credits - (reservations.map (fun r => r.2)).sum

/-- The active era transition (lines 416-439): StartingSystem1 advances to
StartingSystem2 when 800 000 credits are available; every other state has
no transition (the StartingSystem2 to InterSystem1 advance is commented
out in the source). -/
def nextEra (era : AgentEra) (availableCredits : Int) : Option AgentEra :=
  match era with
  | .startingSystem1 =>
    if 800000 ≤ availableCredits then some .startingSystem2 else none
  | .startingSystem2 => none
  | .interSystem1 => none
  | .interSystem2 => none

theorem nextEra_rank_lt (era e2 : AgentEra) (c : Int)
    (h : nextEra era c = some e2) : era.rank < e2.rank := by
  cases era with
  | startingSystem1 =>
    unfold nextEra at h
    by_cases hc : (800000 : Int) ≤ c
    · rw [if_pos hc] at h
      injection h with h
      subst h
      decide
    · rw [if_neg hc] at h
      cases h
  | startingSystem2 => cases h
  | interSystem1 => cases h
  | interSystem2 => cases h

/-- The advance loop (lines 414-448): advance while a transition fires,
persisting each new era (the returned list records the persisted eras in
order).  The available credits are re-read each iteration but no local
action changes them, so they appear as a fixed argument. -/
def eraLoop (credits : Int) (era : AgentEra) : AgentEra × List AgentEra :=
  match h : nextEra era credits with
  | none => (era, [])
  | some e2 =>
    let r := eraLoop credits e2
    (r.1, e2 :: r.2)
termination_by 3 - era.rank
decreasing_by
  have := nextEra_rank_lt era e2 credits h
  have h4 : era.rank ≤ 3 := by cases era <;> decide
  have h5 : e2.rank ≤ 3 := by cases e2 <;> decide
  omega

/-- check_era_advance (lines 402-449): an override short-circuits to the
chosen state (persisting it when it differs); otherwise the loop runs to a
fixed point. -/
def checkEraAdvance (eraOverride : Option AgentEra) (era : AgentEra)
    (availableCredits : Int) : AgentEra × List AgentEra :=
  match eraOverride with
  | some o => if o ≠ era then (o, [o]) else (era, [])
  | none => eraLoop availableCredits era

theorem eraLoop_none (credits : Int) (era : AgentEra)
    (h : nextEra era credits = none) : eraLoop credits era = (era, []) := by
  rw [eraLoop, h]

theorem eraLoop_some (credits : Int) (era e2 : AgentEra)
    (h : nextEra era credits = some e2) :
    eraLoop credits era = ((eraLoop credits e2).1, e2 :: (eraLoop credits e2).2) := by
  rw [eraLoop, h]

/-- C6: absent an override, the only transition is StartingSystem1 to
StartingSystem2, taken exactly when 800 000 credits are available: 799 999
credits with zero reservations produce no change, 800 000 credits advance
exactly once and persist the new state, no other era ever changes, and
the era rank never decreases. -/
theorem era_advance_machine :
    checkEraAdvance none .startingSystem1 (ledgerAvailable 799999 [])
      = (.startingSystem1, []) ∧
    checkEraAdvance none .startingSystem1 (ledgerAvailable 800000 [])
      = (.startingSystem2, [.startingSystem2]) ∧
    (∀ c : Int, 800000 ≤ c →
      checkEraAdvance none .startingSystem1 c = (.startingSystem2, [.startingSystem2])) ∧
    (∀ c : Int, c < 800000 →
      checkEraAdvance none .startingSystem1 c = (.startingSystem1, [])) ∧
    (∀ e : AgentEra, e ≠ .startingSystem1 → ∀ c : Int,
      checkEraAdvance none e c = (e, [])) ∧
    (∀ e : AgentEra, ∀ c : Int, e.rank ≤ (checkEraAdvance none e c).1.rank) := by
  have hstep : ∀ c : Int, 800000 ≤ c →
      checkEraAdvance none .startingSystem1 c = (.startingSystem2, [.startingSystem2]) := by
    intro c hc
    show eraLoop c .startingSystem1 = (.startingSystem2, [.startingSystem2])
    rw [eraLoop_some c .startingSystem1 .startingSystem2 (by simp [nextEra, hc]),
      eraLoop_none c .startingSystem2 rfl]
  have hstay : ∀ c : Int, c < 800000 →
      checkEraAdvance none .startingSystem1 c = (.startingSystem1, []) := by
    intro c hc
    show eraLoop c .startingSystem1 = (.startingSystem1, [])
    refine eraLoop_none c .startingSystem1 ?_
    simp only [nextEra, if_neg (by omega : ¬ (800000 : Int) ≤ c)]
  have hother : ∀ e : AgentEra, e ≠ .startingSystem1 → ∀ c : Int,
      checkEraAdvance none e c = (e, []) := by
    intro e he c
    show eraLoop c e = (e, [])
    refine eraLoop_none c e ?_
    cases e with
    | startingSystem1 => exact absurd rfl he
    | startingSystem2 => rfl
    | interSystem1 => rfl
    | interSystem2 => rfl
  refine ⟨hstay _ (by simp [ledgerAvailable]), hstep _ (by simp [ledgerAvailable]),
    hstep, hstay, hother, ?_⟩
  intro e c
  cases he : decide (e = AgentEra.startingSystem1) with
  | false =>
    rw [hother e (by simpa using he) c]
  | true =>
    have he2 : e = .startingSystem1 := by simpa using he
    subst he2
    by_cases hc : (800000 : Int) ≤ c
    · rw [hstep c hc]
      decide
    · rw [hstay c (by omega)]

/-- Witness for C6 at 800 000 available credits from StartingSystem1. -/
theorem era_advance_machine_witness :
    checkEraAdvance none .startingSystem1 800000
      = (.startingSystem2, [.startingSystem2]) :=
  era_advance_machine.2.2.1 800000 (by norm_num)

/-! ## Agent controller: ship procurement
(src/agent_controller/agent_controller.rs lines 563-699) -/

/-- ShipConfig purchase criteria (models::PurchaseCriteria restricted to
the fields try_buy_ship reads). -/
structure PurchaseCriteria where
  systemSymbol : Option String
  neverPurchase : Bool
  requireCheapest : Bool
  allowLogisticTask : Bool
deriving DecidableEq, Repr

/-- The behaviour kinds of a role (models::ShipBehaviour without the
per-behaviour payloads, which procurement does not read). -/
inductive ShipBehaviourKind
  | probe
  | logistics
  | siphonDrone
  | siphonShuttle
  | miningDrone
  | miningShuttle
  | miningSurveyor
  | constructionHauler
  | jumpgateProbe
  | explorer
deriving DecidableEq, Repr

/-- A role of the ship configuration (models::ShipConfig restricted to the
fields procurement and assignment read). -/
structure ShipConfig where
  id : String
  shipModel : String
  behaviour : ShipBehaviourKind
  purchaseCriteria : PurchaseCriteria
deriving DecidableEq, Repr

/-- A ship as the purchaser search sees it: symbol, current waypoint, and
whether it is in transit. -/
structure ShipView where
  symbol : String
  waypoint : String
  inTransit : Bool
deriving DecidableEq, Repr

/-- The result of try_buy_ship (BuyShipResult, lines 40-50). -/
inductive BuyShipResult
  | bought (shipSymbol : String)
  | failedNeverPurchase
  | failedLowCredits
  | failedNoShipyards
  | failedNoPurchaser (waypoint : Option String)
deriving DecidableEq, Repr

/-- The shipyard waypoint a FailedNoPurchaser result suggests for a
TryBuyShips task; every other result suggests none. -/
def taskWaypointOf : BuyShipResult → Option String
  | .failedNoPurchaser w => w
  | _ => none

/-- The job credit reservation (lines 588-593): 5000 per unit of the
model cargo capacity for a Logistics role, 0 otherwise.  `shipModels` is
the SHIP_MODELS table (models module, outside the given sources) giving
each model its cargo capacity. -/
def jobCreditReservation (shipModels : String → Int) (job : ShipConfig) : Int :=
  match job.behaviour with
  | .logistics => shipModels job.shipModel * 5000
  | _ => 0

/-- Stable insertion of an element into a list sorted by key: the element
goes before the first strictly greater key, after equal keys. -/
def insertSortedBy {α : Type} (key : α → Int) (x : α) : List α → List α
  | [] => [x]
  | y :: ys => if key x ≤ key y then x :: y :: ys else y :: insertSortedBy key x ys

/-- Stable sort by key (`sort_by_key` at line 583). -/
def sortByKey {α : Type} (key : α → Int) : List α → List α
  | [] => []
  | x :: xs => insertSortedBy key x (sortByKey key xs)

theorem insertSortedBy_mem {α : Type} (key : α → Int) (x a : α) :
    ∀ l : List α, a ∈ insertSortedBy key x l ↔ a = x ∨ a ∈ l
  | [] => by simp [insertSortedBy]
  | y :: ys => by
    unfold insertSortedBy
    by_cases hk : key x ≤ key y
    · rw [if_pos hk]
      simp
    · rw [if_neg hk]
      simp only [List.mem_cons, insertSortedBy_mem key x a ys]
      tauto

theorem sortByKey_mem {α : Type} (key : α → Int) (a : α) :
    ∀ l : List α, a ∈ sortByKey key l ↔ a ∈ l
  | [] => by simp [sortByKey]
  | x :: xs => by
    unfold sortByKey
    rw [insertSortedBy_mem, sortByKey_mem key a xs]
    simp

/-- The purchaser search at one shipyard (lines 609-624): the first ship
parked (not in transit) at the shipyard that is a static probe or the
provided purchaser. -/
def findPurchaser (ships : List ShipView) (staticProbes : List String)
    (purchaser : Option String) (shipyard : String) : Option String :=
  (ships.find? (fun s =>
    !(s.waypoint != shipyard || s.inTransit) &&
    (staticProbes.contains s.symbol || purchaser == some s.symbol))).map
    (fun s => s.symbol)

/-- The shipyard walk of try_buy_ship (lines 604-641) over the shipyards
in ascending price order: stop as soon as a shipyard is unaffordable; buy
at the first shipyard with a purchaser (the remote purchase returns
`newShipSymbol`); without a purchaser, stop when require_cheapest is set
and move to the next shipyard otherwise.  Returns none when the walk ends
without buying. -/
def tryBuyShipLoop (ships : List ShipView) (staticProbes : List String)
    (purchaser : Option String) (requireCheapest : Bool)
    (available jobReservation : Int) (newShipSymbol : String) :
    List (String × Int) → Option BuyShipResult
  | [] => none
  | (shipyard, cost) :: rest =>
    if available < cost + jobReservation then none
    else
      match findPurchaser ships staticProbes purchaser shipyard with
      | some _ => some (.bought newShipSymbol)
      | none =>
        if requireCheapest then none
        else tryBuyShipLoop ships staticProbes purchaser requireCheapest
          available jobReservation newShipSymbol rest

/-- try_buy_ship (lines 563-650) for one role.  `shipyards` is the result
of `search_shipyards(purchase system, model)` (the purchase system is the
role override or the starting system); the successful-purchase path also
refreshes the shipyard and assigns the new ship, which the embedding
abstracts into the returned Bought symbol. -/
def tryBuyShip (shipModels : String → Int) (purchaser : Option String)
    (ships : List ShipView) (staticProbes : List String)
    (shipyards : List (String × Int)) (available : Int)
    (newShipSymbol : String) (job : ShipConfig) : BuyShipResult :=
  if job.purchaseCriteria.neverPurchase then .failedNeverPurchase
  else
    match sortByKey (fun p => p.2) shipyards with
    | [] => .failedNoShipyards
    | (cheapest, cheapestCost) :: rest =>
      match tryBuyShipLoop ships staticProbes purchaser
          job.purchaseCriteria.requireCheapest available
          (jobCreditReservation shipModels job) newShipSymbol
          ((cheapest, cheapestCost) :: rest) with
      | some result => result
      | none =>
        if available < cheapestCost + jobCreditReservation shipModels job then
          .failedLowCredits
        else if job.purchaseCriteria.allowLogisticTask then
          .failedNoPurchaser (some cheapest)
        else .failedNoPurchaser none

/-- C5: with job_reservation = 5000 x cargo capacity for Logistics roles
and 0 otherwise, whenever the available credits are below every listed
shipyard price plus the reservation (equivalently below the cheapest plus
the reservation), try_buy_ship returns FailedLowCredits, buys nothing and
produces no TryBuyShips task waypoint.  (The hypothesis quantifies over
all listed shipyards, which is equivalent to the cheapest-price phrasing
because the cheapest price is minimal.) -/
theorem try_buy_ship_low_credits (shipModels : String → Int)
    (purchaser : Option String) (ships : List ShipView)
    (staticProbes : List String) (shipyards : List (String × Int))
    (available : Int) (newShipSymbol : String) (job : ShipConfig)
    (hnp : job.purchaseCriteria.neverPurchase = false)
    (hne : shipyards ≠ [])
    (hlow : ∀ p ∈ shipyards, available < p.2 + jobCreditReservation shipModels job) :
    tryBuyShip shipModels purchaser ships staticProbes shipyards available
      newShipSymbol job = .failedLowCredits ∧
    (∀ s, tryBuyShip shipModels purchaser ships staticProbes shipyards available
      newShipSymbol job ≠ .bought s) ∧
    taskWaypointOf (tryBuyShip shipModels purchaser ships staticProbes shipyards
      available newShipSymbol job) = none := by
  have hmain : tryBuyShip shipModels purchaser ships staticProbes shipyards available
      newShipSymbol job = .failedLowCredits := by
    unfold tryBuyShip
    rw [if_neg (by rw [hnp]; exact Bool.false_ne_true)]
    cases hs : sortByKey (fun p => p.2) shipyards with
    | nil =>
      exfalso
      cases hl : shipyards with
      | nil => exact hne hl
      | cons p ps =>
        have : p ∈ sortByKey (fun p => p.2) shipyards := by
          rw [sortByKey_mem, hl]
          exact List.mem_cons_self p ps
        rw [hs] at this
        cases this
    | cons hd tl =>
      have hhd : hd ∈ shipyards := by
        rw [← sortByKey_mem (fun p => p.2), hs]
        exact List.mem_cons_self hd tl
      have hlt : available < hd.2 + jobCreditReservation shipModels job := hlow hd hhd
      dsimp only
      rw [show tryBuyShipLoop ships staticProbes purchaser
          job.purchaseCriteria.requireCheapest available
          (jobCreditReservation shipModels job) newShipSymbol ((hd.1, hd.2) :: tl) = none from by
        unfold tryBuyShipLoop
        rw [if_pos hlt]]
      rw [if_pos hlt]
  refine ⟨hmain, ?_, ?_⟩
  · intro s hc
    rw [hmain] at hc
    cases hc
  · rw [hmain]
    rfl

/-- A logistics hauler role for the C5 scenario. -/
def jobHauler : ShipConfig :=
  { id := "hauler-3", shipModel := "SHIP_LIGHT_HAULER", behaviour := .logistics
    purchaseCriteria :=
      { systemSymbol := none, neverPurchase := false
        requireCheapest := false, allowLogisticTask := true } }

/-- The SHIP_MODELS cargo capacities used by the concrete scenarios: every
model of the scenarios has capacity 40. -/
def modelCapacity40 : String → Int := fun _ => 40

/-- Witness for C5 at the spec scenario: two logistics ships reserve
200 000 each out of 350 000 credits, the cheapest hauler costs 150 000 and
the job reservation is 200 000, so available = -50 000 and the attempt
fails with FailedLowCredits. -/
theorem try_buy_ship_low_credits_witness :
    tryBuyShip modelCapacity40 none [] [] [("SY1", 150000)]
      (ledgerAvailable 350000 [("LOGISTICS-1", 200000), ("LOGISTICS-2", 200000)])
      "NEWSHIP-9" jobHauler = .failedLowCredits :=
  (try_buy_ship_low_credits modelCapacity40 none [] [] [("SY1", 150000)]
    (ledgerAvailable 350000 [("LOGISTICS-1", 200000), ("LOGISTICS-2", 200000)])
    "NEWSHIP-9" jobHauler (by decide) (by decide) (by decide)).1

/-! ## Agent controller: try_buy_ships
(src/agent_controller/agent_controller.rs lines 652-699) -/

/-- The observable outcome of one try_buy_ships call: the ships bought,
the suggested TryBuyShips waypoint, and (as embedding instrumentation)
the roles for which a purchase attempt was made, in order. -/
structure TryBuyShipsResult where
  bought : List String
  taskWaypoint : Option String
  attempted : List ShipConfig
deriving DecidableEq, Repr

/-- The unfilled roles of the configuration, in configuration order
(`filter (not job_assigned)` at line 667). -/
def unfilledJobs (cfg : List ShipConfig) (assigned : List String) : List ShipConfig :=
  cfg.filter (fun job => !assigned.contains job.id)

/-- The role walk of try_buy_ships (lines 667-697): attempt each role in
order; a Bought result accumulates and continues; any failure returns
immediately with the ships bought so far (and the suggested waypoint for
FailedNoPurchaser).  `attempt` stands for try_buy_ship applied to the
environment of the call. -/
def tryBuyShipsGo (attempt : ShipConfig → BuyShipResult) :
    List ShipConfig → TryBuyShipsResult
  | [] => { bought := [], taskWaypoint := none, attempted := [] }
  | job :: rest =>
    match attempt job with
    | .bought s =>
      let r := tryBuyShipsGo attempt rest
      { bought := s :: r.bought, taskWaypoint := r.taskWaypoint
        attempted := job :: r.attempted }
    | .failedNeverPurchase => { bought := [], taskWaypoint := none, attempted := [job] }
    | .failedLowCredits => { bought := [], taskWaypoint := none, attempted := [job] }
    | .failedNoShipyards => { bought := [], taskWaypoint := none, attempted := [job] }
    | .failedNoPurchaser w => { bought := [], taskWaypoint := w, attempted := [job] }

/-- try_buy_ships (lines 652-699): under the buy-ships lock the ship
configuration is refreshed (the `cfg` argument is the refreshed
configuration); with scrap_all_ships nothing is attempted; otherwise the
unfilled roles are walked. -/
def tryBuyShips (scrapAllShips : Bool) (cfg : List ShipConfig)
    (assigned : List String) (attempt : ShipConfig → BuyShipResult) :
    TryBuyShipsResult :=
  if scrapAllShips then { bought := [], taskWaypoint := none, attempted := [] }
  else tryBuyShipsGo attempt (unfilledJobs cfg assigned)

theorem tryBuyShipsGo_spec (attempt : ShipConfig → BuyShipResult) :
    ∀ jobs : List ShipConfig,
      (∃ rest, (tryBuyShipsGo attempt jobs).attempted ++ rest = jobs) ∧
      ((tryBuyShipsGo attempt jobs).bought
        = (tryBuyShipsGo attempt jobs).attempted.filterMap
            (fun j => match attempt j with | .bought s => some s | _ => none)) ∧
      (∀ j ∈ jobs, j ∉ (tryBuyShipsGo attempt jobs).attempted →
        ∃ j2 ∈ (tryBuyShipsGo attempt jobs).attempted, ∀ s, attempt j2 ≠ .bought s)
  | [] => by
    refine ⟨⟨[], rfl⟩, rfl, ?_⟩
    intro j hj
    cases hj
  | job :: rest => by
    obtain ⟨⟨tail, htail⟩, hbought, hmiss⟩ := tryBuyShipsGo_spec attempt rest
    cases hatt : attempt job with
    | bought s =>
      unfold tryBuyShipsGo
      rw [hatt]
      refine ⟨⟨tail, by simpa using htail⟩, by simp [hatt, hbought], ?_⟩
      intro j hj hnot
      simp only [List.mem_cons, not_or] at hnot
      rcases List.mem_cons.mp hj with h1 | h1
      · exact absurd h1 hnot.1
      · obtain ⟨j2, hj2, hj2f⟩ := hmiss j h1 hnot.2
        exact ⟨j2, List.mem_cons_of_mem job hj2, hj2f⟩
    | failedNeverPurchase =>
      unfold tryBuyShipsGo
      rw [hatt]
      refine ⟨⟨rest, rfl⟩, by simp [hatt], ?_⟩
      intro j hj hnot
      exact ⟨job, List.mem_cons_self job [], fun s hc => by rw [hatt] at hc; cases hc⟩
    | failedLowCredits =>
      unfold tryBuyShipsGo
      rw [hatt]
      refine ⟨⟨rest, rfl⟩, by simp [hatt], ?_⟩
      intro j hj hnot
      exact ⟨job, List.mem_cons_self job [], fun s hc => by rw [hatt] at hc; cases hc⟩
    | failedNoShipyards =>
      unfold tryBuyShipsGo
      rw [hatt]
      refine ⟨⟨rest, rfl⟩, by simp [hatt], ?_⟩
      intro j hj hnot
      exact ⟨job, List.mem_cons_self job [], fun s hc => by rw [hatt] at hc; cases hc⟩
    | failedNoPurchaser w =>
      unfold tryBuyShipsGo
      rw [hatt]
      refine ⟨⟨rest, rfl⟩, by simp [hatt], ?_⟩
      intro j hj hnot
      exact ⟨job, List.mem_cons_self job [], fun s hc => by rw [hatt] at hc; cases hc⟩

/-- A never-purchase probe role whose attempt fails first. -/
def jobNeverBuy : ShipConfig :=
  { id := "probe-static-1", shipModel := "SHIP_PROBE", behaviour := .probe
    purchaseCriteria :=
      { systemSymbol := none, neverPurchase := true
        requireCheapest := false, allowLogisticTask := false } }

/-- A buyable hauler role listed after the never-purchase role. -/
def jobBuyable : ShipConfig :=
  { id := "hauler-9", shipModel := "SHIP_LIGHT_HAULER", behaviour := .logistics
    purchaseCriteria :=
      { systemSymbol := none, neverPurchase := false
        requireCheapest := false, allowLogisticTask := true } }

/-- The concrete environment of the C9 counterexample: a static probe is
parked at the only shipyard and one million credits are available, so a
purchase attempt for `jobBuyable` succeeds. -/
def cexAttempt (job : ShipConfig) : BuyShipResult :=
  tryBuyShip modelCapacity40 none
    [{ symbol := "PROBE-7", waypoint := "SY1", inTransit := false }]
    ["PROBE-7"] [("SY1", 150000)] 1000000 "NEWSHIP-1" job

/-- Counterexample to C9 as stated: with the never-purchase role first,
try_buy_ships returns after that single failed attempt; the unfilled
second role is never attempted even though its attempt would buy a
ship. -/
theorem try_buy_ships_stops_cex :
    tryBuyShips false [jobNeverBuy, jobBuyable] [] cexAttempt
      = { bought := [], taskWaypoint := none, attempted := [jobNeverBuy] } ∧
    cexAttempt jobBuyable = .bought "NEWSHIP-1" := by
  constructor
  · decide
  · decide

/-- C9 (amended): try_buy_ships walks the unfilled roles in configuration
order but stops at the first failed attempt: the attempted roles are a
prefix of the unfilled roles, the returned list contains exactly the
ships bought by the attempts made (in order), and a role is skipped only
when some earlier attempted role failed. -/
theorem try_buy_ships_walk (cfg : List ShipConfig) (assigned : List String)
    (attempt : ShipConfig → BuyShipResult) :
    (∃ rest, (tryBuyShips false cfg assigned attempt).attempted ++ rest
      = unfilledJobs cfg assigned) ∧
    ((tryBuyShips false cfg assigned attempt).bought
      = (tryBuyShips false cfg assigned attempt).attempted.filterMap
          (fun j => match attempt j with | .bought s => some s | _ => none)) ∧
    (∀ j ∈ unfilledJobs cfg assigned,
      j ∉ (tryBuyShips false cfg assigned attempt).attempted →
      ∃ j2 ∈ (tryBuyShips false cfg assigned attempt).attempted,
        ∀ s, attempt j2 ≠ .bought s) := by
  have h := tryBuyShipsGo_spec attempt (unfilledJobs cfg assigned)
  exact h

/-- Witness for the amended C9 at the concrete two-role configuration. -/
theorem try_buy_ships_walk_witness :
    (tryBuyShips false [jobNeverBuy, jobBuyable] [] cexAttempt).bought
      = (tryBuyShips false [jobNeverBuy, jobBuyable] [] cexAttempt).attempted.filterMap
          (fun j => match cexAttempt j with | .bought s => some s | _ => none) :=
  (try_buy_ships_walk [jobNeverBuy, jobBuyable] [] cexAttempt).2.1

/-! ## Agent controller: try_assign_ship
(src/agent_controller/agent_controller.rs lines 912-947) -/

/-- try_assign_ship: asserts the ship is not in the reverse assignment
index (a Rust `assert!`, embedded as the error), then assigns the first
role whose id is unassigned and whose model matches, inserting into both
assignment maps (persistence and credit reservation abstracted), or
returns false leaving the maps unchanged.  The maps are association lists
`job id to ship` and `ship to job id`. -/
def tryAssignShip (cfg : List ShipConfig)
    (assignments assignmentsRev : List (String × String))
    (shipSymbol shipModel : String) :
    Except String (Bool × List (String × String) × List (String × String)) :=
  if assignmentsRev.any (fun p => p.1 == shipSymbol) then
    .error "assertion failed: ship already assigned"
  else
    match cfg.find? (fun job =>
        !(assignments.any (fun p => p.1 == job.id)) && job.shipModel == shipModel) with
    | some job =>
      .ok (true, (job.id, shipSymbol) :: assignments, (shipSymbol, job.id) :: assignmentsRev)
    | none => .ok (false, assignments, assignmentsRev)

/-- C10: calling try_assign_ship with a ship already present in the
reverse assignment index fails the assertion (the process aborts) rather
than returning false; when the ship is unassigned the assertion is
unreachable and the call either assigns the first unfilled matching role
and returns true, or leaves the assignments unchanged and returns
false. -/
theorem try_assign_ship_assert (cfg : List ShipConfig)
    (assignments assignmentsRev : List (String × String))
    (shipSymbol shipModel : String) :
    ((∃ p ∈ assignmentsRev, p.1 = shipSymbol) →
      tryAssignShip cfg assignments assignmentsRev shipSymbol shipModel
        = .error "assertion failed: ship already assigned") ∧
    ((∀ p ∈ assignmentsRev, p.1 ≠ shipSymbol) →
      (∀ job, cfg.find? (fun job =>
          !(assignments.any (fun p => p.1 == job.id)) && job.shipModel == shipModel)
            = some job →
        tryAssignShip cfg assignments assignmentsRev shipSymbol shipModel
          = .ok (true, (job.id, shipSymbol) :: assignments,
              (shipSymbol, job.id) :: assignmentsRev)) ∧
      (cfg.find? (fun job =>
          !(assignments.any (fun p => p.1 == job.id)) && job.shipModel == shipModel)
            = none →
        tryAssignShip cfg assignments assignmentsRev shipSymbol shipModel
          = .ok (false, assignments, assignmentsRev))) := by
  constructor
  · intro hmem
    unfold tryAssignShip
    rw [if_pos ?_]
    obtain ⟨p, hp, hps⟩ := hmem
    rw [List.any_eq_true]
    exact ⟨p, hp, by simpa using hps⟩
  · intro hno
    have hcond : ¬ (assignmentsRev.any (fun p => p.1 == shipSymbol)) = true := by
      rw [List.any_eq_true]
      rintro ⟨p, hp, hps⟩
      exact hno p hp (by simpa using hps)
    constructor
    · intro job hfind
      unfold tryAssignShip
      rw [if_neg hcond, hfind]
    · intro hfind
      unfold tryAssignShip
      rw [if_neg hcond, hfind]

/-- Witness for C10: with SHIP-1 already in the reverse index, the call
aborts on the assertion. -/
theorem try_assign_ship_assert_witness :
    tryAssignShip [] [] [("SHIP-1", "job-1")] "SHIP-1" "SHIP_PROBE"
      = .error "assertion failed: ship already assigned" :=
  (try_assign_ship_assert [] [] [("SHIP-1", "job-1")] "SHIP-1" "SHIP_PROBE").1
    ⟨("SHIP-1", "job-1"), by decide, rfl⟩

/-! ## Logistics executor: cargo reconciliation
(src/ship_scripts/logistics.rs lines 74-124) -/

/-- BTreeMap entry update `*entry(g).or_insert(0) += amt` on a cargo map
kept as an association list sorted by key. -/
def mapInsertAdd : List (String × Int) → String → Int → List (String × Int)
  | [], g, amt => [(g, amt)]
  | (k, v) :: rest, g, amt =>
    if g = k then (k, v + amt) :: rest
    else if g < k then (g, amt) :: (k, v) :: rest
    else (k, v) :: mapInsertAdd rest g amt

/-- `retain(|_, v| v != 0)`. -/
def mapRetainNonzero (m : List (String × Int)) : List (String × Int) :=
  m.filter (fun p => p.2 != 0)

/-- BTreeMap `remove(key)` on a key-unique association list. -/
def mapRemove (m : List (String × Int)) (g : String) : List (String × Int) :=
  m.filter (fun p => p.1 != g)

/-- `expected_cargo` (lines 74-81): the sum of the net-cargo deltas of the
first `progress` scheduled actions (actions without a delta contribute
nothing), with zero entries removed.  Each delta is
`action.net_cargo() : Option (good, amount)`. -/
def expectedCargo (deltas : List (Option (String × Int))) (progress : Nat) :
    List (String × Int) :=
  mapRetainNonzero ((deltas.take progress).foldl
    (fun m d => match d with
      | some (g, amt) => mapInsertAdd m g amt
      | none => m) [])

/-- `expected_cargo` after also applying the net delta of the next
scheduled action (lines 91-95), zero entries removed again. -/
def expectedCargoNext (deltas : List (Option (String × Int))) (progress : Nat) :
    List (String × Int) :=
  match deltas.get? progress with
  | some (some (g, amt)) =>
    mapRetainNonzero (mapInsertAdd (expectedCargo deltas progress) g amt)
  | _ => mapRetainNonzero (expectedCargo deltas progress)

/-- The four ways the reconciliation can continue; `fatalMismatch` is the
`panic!("Couldn't recover cargo state")` that terminates the ship
executor, `panickedUnwrap` the `.get(progress).unwrap()` on an
out-of-range progress (unreachable in the executor, which only resumes
with `progress < len`). -/
inductive ReconcileOutcome
  | proceed
  | skipNextAction
  | sellFuelThenProceed
  | fatalMismatch
  | panickedUnwrap
deriving DecidableEq, Repr

/-- The cargo reconciliation decision (lines 82-124): proceed when the
actual cargo map equals the expected one; otherwise skip the next action
when the actual cargo equals the expected map after that action; otherwise
sell the fuel and proceed when the actual cargo minus its FUEL entry
equals the expected map; otherwise the mismatch is fatal. -/
def reconcileCargo (deltas : List (Option (String × Int))) (progress : Nat)
    (actualCargo : List (String × Int)) : ReconcileOutcome :=
  match deltas.get? progress with
  | none => .panickedUnwrap
  | some _ =>
    if expectedCargo deltas progress = actualCargo then .proceed
    else if expectedCargoNext deltas progress = actualCargo then .skipNextAction
    else if expectedCargo deltas progress = mapRemove actualCargo "FUEL" then
      .sellFuelThenProceed
    else .fatalMismatch

/-- C8: before executing a schedule the executor compares the actual
cargo with the sum of the net deltas of the already-executed actions:
equal means proceed; equal after also applying the next action's delta
means skip exactly that action; equal once the (nonzero) FUEL surplus is
removed means sell the fuel and proceed; anything else is a fatal
mismatch that terminates the ship executor.  The cases apply in this
priority order, and the fuel case really carries a nonzero fuel entry. -/
theorem cargo_reconciliation (deltas : List (Option (String × Int)))
    (progress : Nat) (actualCargo : List (String × Int))
    (hlen : progress < deltas.length)
    (hwf : ∀ p ∈ actualCargo, p.2 ≠ 0) :
    (reconcileCargo deltas progress actualCargo = .proceed ↔
      expectedCargo deltas progress = actualCargo) ∧
    (reconcileCargo deltas progress actualCargo = .skipNextAction ↔
      (expectedCargo deltas progress ≠ actualCargo ∧
        expectedCargoNext deltas progress = actualCargo)) ∧
    (reconcileCargo deltas progress actualCargo = .sellFuelThenProceed ↔
      (expectedCargo deltas progress ≠ actualCargo ∧
        expectedCargoNext deltas progress ≠ actualCargo ∧
        expectedCargo deltas progress = mapRemove actualCargo "FUEL")) ∧
    (reconcileCargo deltas progress actualCargo = .sellFuelThenProceed →
      ∃ u : Int, ("FUEL", u) ∈ actualCargo ∧ u ≠ 0) ∧
    (reconcileCargo deltas progress actualCargo = .fatalMismatch ↔
      (expectedCargo deltas progress ≠ actualCargo ∧
        expectedCargoNext deltas progress ≠ actualCargo ∧
        expectedCargo deltas progress ≠ mapRemove actualCargo "FUEL")) := by
  have hget : ∃ d, deltas.get? progress = some d := by
    cases hx : deltas.get? progress with
    | none =>
      exfalso
      rw [List.get?_eq_none] at hx
      omega
    | some d => exact ⟨d, rfl⟩
  obtain ⟨d, hd⟩ := hget
  have hfuel : expectedCargo deltas progress ≠ actualCargo →
      expectedCargo deltas progress = mapRemove actualCargo "FUEL" →
      ∃ u : Int, ("FUEL", u) ∈ actualCargo ∧ u ≠ 0 := by
    intro hne hrm
    by_cases hex : ∃ u : Int, ("FUEL", u) ∈ actualCargo
    · obtain ⟨u, hu⟩ := hex
      exact ⟨u, hu, hwf _ hu⟩
    · exfalso
      apply hne
      have hall : ∀ p ∈ actualCargo, (p.1 != "FUEL") = true := by
        intro p hp
        have hne2 : p.1 ≠ "FUEL" := by
          intro hps
          apply hex
          refine ⟨p.2, ?_⟩
          have hfp : (("FUEL" : String), p.2) = p := by rw [← hps]
          rw [hfp]
          exact hp
        simpa using hne2
      rw [hrm]
      show actualCargo.filter (fun p => p.1 != "FUEL") = actualCargo
      exact List.filter_eq_self.mpr hall
  unfold reconcileCargo
  rw [hd]
  dsimp only
  by_cases h1 : expectedCargo deltas progress = actualCargo
  · rw [if_pos h1]
    exact ⟨⟨fun _ => h1, fun _ => rfl⟩,
      ⟨fun hc => absurd hc (by decide), fun hcon => absurd h1 hcon.1⟩,
      ⟨fun hc => absurd hc (by decide), fun hcon => absurd h1 hcon.1⟩,
      fun hc => absurd hc (by decide),
      ⟨fun hc => absurd hc (by decide), fun hcon => absurd h1 hcon.1⟩⟩
  · rw [if_neg h1]
    by_cases h2 : expectedCargoNext deltas progress = actualCargo
    · rw [if_pos h2]
      exact ⟨⟨fun hc => absurd hc (by decide), fun he => absurd he h1⟩,
        ⟨fun _ => ⟨h1, h2⟩, fun _ => rfl⟩,
        ⟨fun hc => absurd hc (by decide), fun hcon => absurd h2 hcon.2.1⟩,
        fun hc => absurd hc (by decide),
        ⟨fun hc => absurd hc (by decide), fun hcon => absurd h2 hcon.2.1⟩⟩
    · rw [if_neg h2]
      by_cases h3 : expectedCargo deltas progress = mapRemove actualCargo "FUEL"
      · rw [if_pos h3]
        exact ⟨⟨fun hc => absurd hc (by decide), fun he => absurd he h1⟩,
          ⟨fun hc => absurd hc (by decide), fun hcon => absurd hcon.2 h2⟩,
          ⟨fun _ => ⟨h1, h2, h3⟩, fun _ => rfl⟩,
          fun _ => hfuel h1 h3,
          ⟨fun hc => absurd hc (by decide), fun hcon => absurd h3 hcon.2.2⟩⟩
      · rw [if_neg h3]
        exact ⟨⟨fun hc => absurd hc (by decide), fun he => absurd he h1⟩,
          ⟨fun hc => absurd hc (by decide), fun hcon => absurd hcon.2 h2⟩,
          ⟨fun hc => absurd hc (by decide), fun hcon => absurd hcon.2.2 h3⟩,
          fun hc => absurd hc (by decide),
          ⟨fun _ => ⟨h1, h2, h3⟩, fun _ => rfl⟩⟩

/-- Witness for C8: a fresh schedule (progress 0, empty cargo) passes the
reconciliation and proceeds. -/
theorem cargo_reconciliation_witness :
    reconcileCargo [some ("FOOD", 10)] 0 [] = .proceed :=
  (cargo_reconciliation [some ("FOOD", 10)] 0 [] (by decide) (by simp)).1.mpr
    (by decide)

end SpaceTraders
